import Mathlib

/-!
Verification development for the GCS storage client
(pkg/storage/gcs.go): pooled connection lifecycle, directory-style
traversal over a flat key namespace, streamed upload/download,
stat/delete/server-side copy, key remapping and the diagnostic
transport wrapper.

Strings are embedded as lists of characters (`GoStr`); the Go
standard library helpers used by the source (strings.TrimPrefix,
path.Join, path.Clean) are reimplemented below on that
representation.  Backend calls made through the Google client
library are modelled by oracle parameters describing the outcome of
each call, and the object store itself by an association list.
-/

/-- Go strings, embedded as lists of characters. -/
abbrev GoStr := List Char

/-- Embedding of strings.HasPrefix: first argument starts with second. -/
def goStartsWith : GoStr → GoStr → Bool
  | _, [] => true
  | [], _ :: _ => false
  | c :: s, d :: ds => c == d && goStartsWith s ds

/-- Embedding of strings.TrimPrefix: drop p from the front of s when present. -/
def goTrimPfx (s p : GoStr) : GoStr :=
  if goStartsWith s p then s.drop p.length else s

/-- Split a string on a single separator character (Go strings.Split with a
    one-character separator, which is the only form this source needs). -/
def goSplitChar (c : Char) : GoStr → List GoStr
  | [] => [[]]
  | x :: xs =>
    let r := goSplitChar c xs
    if x = c then [] :: r
    else
      match r with
      | [] => [[x]]
      | y :: ys => (x :: y) :: ys

/-- Join a list of strings with a separator character. -/
def goIntercalate (c : Char) : List GoStr → GoStr
  | [] => []
  | [s] => s
  | s :: rest => s ++ c :: goIntercalate c rest

/-- Embedding of Go path.Clean via its segment semantics: split on the
    separator, drop empty and dot segments, resolve dot-dot segments
    lexically, and restore the leading separator for rooted paths. -/
def goClean (p : GoStr) : GoStr :=
  if p = [] then ['.']
  else
    let rooted := goStartsWith p ['/']
    let segs := (goSplitChar '/' p).filter (fun s => !(s == []) && !(s == ['.']))
    let stack := segs.foldl
      (fun acc seg =>
        if seg == ['.', '.'] then
          match acc with
          | [] => if rooted then [] else [seg]
          | top :: rest => if top == ['.', '.'] then seg :: acc else rest
        else seg :: acc) []
    let body := goIntercalate '/' stack.reverse
    if rooted then '/' :: body
    else if body = [] then ['.'] else body

/-- Accumulator loop of Go path.Join: concatenate the elements with the
    separator, skipping elements while the buffer is still empty and the
    element is empty. -/
def goJoinRaw : List GoStr → GoStr → GoStr
  | [], buf => buf
  | e :: rest, buf =>
    if buf = [] ∧ e = [] then goJoinRaw rest buf
    else if buf = [] then goJoinRaw rest e
    else goJoinRaw rest (buf ++ '/' :: e)

/-- Embedding of Go path.Join: empty when every element is empty, otherwise
    the cleaned separator-joined concatenation. -/
def goPathJoin (elems : List GoStr) : GoStr :=
  if elems.all (fun e => e == []) then []
  else goClean (goJoinRaw elems [])

/-! ## Configuration and remote-file data model -/

/-- The fields of config.GCSConfig that the storage client reads. -/
structure GCSConfig where
  bucket : GoStr
  path : GoStr
  objectDiskPath : GoStr
  storageCls : GoStr
  objectLabels : List (GoStr × GoStr)
deriving DecidableEq

/-- Embedding of the gcsFile descriptor (size, lastModified, name); virtual
    directory entries carry only the name, with zero size and time. -/
structure GFile where
  size : Int
  lastModified : Nat
  name : GoStr
deriving DecidableEq

/-- One stored object on the backend: its content bytes (abstracted to
    naturals), storage class and metadata labels. -/
structure StoredObject where
  content : List Nat
  storageCls : GoStr
  metadata : List (GoStr × GoStr)
deriving DecidableEq

/-- The primary bucket keyed by object key. -/
abbrev Store := List (GoStr × StoredObject)

def storeLookup (st : Store) (k : GoStr) : Option StoredObject :=
  (st.find? (fun e => e.1 == k)).map (·.2)

def storeSet (st : Store) (k : GoStr) (v : StoredObject) : Store :=
  (k, v) :: st.filter (fun e => !(e.1 == k))

def storeErase (st : Store) (k : GoStr) : Store :=
  st.filter (fun e => !(e.1 == k))

/-- A multi-bucket store, keyed by bucket name and object key; used by the
    server-side copy, whose source may live in another bucket. -/
abbrev Store2 := List ((GoStr × GoStr) × StoredObject)

def store2Lookup (st : Store2) (b k : GoStr) : Option StoredObject :=
  (st.find? (fun e => e.1 == (b, k))).map (·.2)

def store2Set (st : Store2) (b k : GoStr) (v : StoredObject) : Store2 :=
  ((b, k), v) :: st.filter (fun e => !(e.1 == (b, k)))

/-! ## The client pool

The go-commons-pool usage in the source reduces to three transitions on a
pool of handles (identified by creation order): BorrowObject hands out an
idle handle or creates a fresh one, ReturnObject puts the borrowed handle
back into the idle set, InvalidateObject destroys it permanently.  The
factory validate/activate/passivate hooks are no-ops in the source. -/

/-- Pool state: idle, borrowed and destroyed handles plus the next fresh
    handle id. -/
structure Pool where
  idle : List Nat
  borrowed : List Nat
  invalidated : List Nat
  next : Nat
deriving DecidableEq

/-- A freshly created pool with no handles yet. -/
def pool0 : Pool := ⟨[], [], [], 0⟩

/-- BorrowObject: reuse the first idle handle, or create a fresh one. -/
def borrowObject (p : Pool) : Nat × Pool :=
  match p.idle with
  | [] => (p.next, { p with borrowed := p.next :: p.borrowed, next := p.next + 1 })
  | c :: rest => (c, { p with idle := rest, borrowed := c :: p.borrowed })

/-- ReturnObject: a healthy handle goes back to the idle set. -/
def returnObject (p : Pool) (h : Nat) : Pool :=
  { p with borrowed := p.borrowed.erase h, idle := h :: p.idle }

/-- InvalidateObject: the handle is destroyed and never reused. -/
def invalidateObject (p : Pool) (h : Nat) : Pool :=
  { p with borrowed := p.borrowed.erase h, invalidated := h :: p.invalidated }

/-- Pool well-formedness: no handle appears twice in any state, no handle is
    in two states at once, and every tracked handle id is below the fresh
    counter. -/
def PoolWF (p : Pool) : Prop :=
  p.idle.Nodup ∧ p.borrowed.Nodup ∧ p.invalidated.Nodup ∧
    (∀ h ∈ p.idle, h ∉ p.borrowed ∧ h ∉ p.invalidated ∧ h < p.next) ∧
    (∀ h ∈ p.borrowed, h ∉ p.invalidated ∧ h < p.next) ∧
    (∀ h ∈ p.invalidated, h < p.next)

instance (p : Pool) : Decidable (PoolWF p) := by
  unfold PoolWF; infer_instance

/-! ## Backend listing and the traversal loop -/

/-- One item produced by the paginated listing cursor: either a common
    "directory" marker (ObjectAttrs with only the grouped key set) or a real
    object (name, size, update time). -/
inductive Item where
  | dir (d : GoStr)
  | obj (name : GoStr) (size : Int) (updated : Nat)
deriving DecidableEq

/-- One outcome of it.Next in Walk: an item, or a non-sentinel cursor
    error.  The sentinel iterator.Done corresponds to the end of the
    list of steps. -/
inductive IterStep where
  | item (it : Item)
  | fail (e : Nat)
deriving DecidableEq

/-- Model of the backend prefix/delimiter listing protocol: keys (given
    with size and update time, in lexicographic order) matching the query
    prefix are returned as objects, except that with a non-empty delimiter
    the keys whose remainder contains the delimiter are grouped into
    common-prefix directory markers (deduplicated while consecutive).  The
    accumulator holds the last emitted directory marker. -/
def gcsList (pfx delim : GoStr) : List (GoStr × Int × Nat) → Option GoStr → List Item
  | [], _ => []
  | (k, sz, tm) :: rest, lastDir =>
    if goStartsWith k pfx then
      match delim with
      | [] => Item.obj k sz tm :: gcsList pfx delim rest lastDir
      | dc :: _ =>
        match goSplitChar dc (k.drop pfx.length) with
        | [] => Item.obj k sz tm :: gcsList pfx delim rest lastDir
        | [_] => Item.obj k sz tm :: gcsList pfx delim rest lastDir
        | a :: _ :: _ =>
          let d := pfx ++ a ++ delim
          if lastDir = some d then gcsList pfx delim rest lastDir
          else Item.dir d :: gcsList pfx delim rest (some d)
    else gcsList pfx delim rest lastDir

/-- Package listing items as iterator steps. -/
def stepsOfItems (items : List Item) : List IterStep :=
  items.map IterStep.item

/-- The root path Walk computes: path.Join of the configured root and the
    walk-relative path (gcs.go line 146). -/
def walkRootPath (cfg : GCSConfig) (gcsPath : GoStr) : GoStr :=
  goPathJoin [cfg.path, gcsPath]

/-- The listing query prefix Walk uses (gcs.go lines 147-150): the root
    path followed by the separator, except that a root path equal to the
    separator alone collapses to the empty prefix. -/
def walkQueryPfx (cfg : GCSConfig) (gcsPath : GoStr) : GoStr :=
  let rootPath := walkRootPath cfg gcsPath
  if rootPath = ['/'] then [] else rootPath ++ ['/']

/-- The listing delimiter Walk uses (gcs.go lines 151-154): empty when
    recursive, the separator otherwise. -/
def walkDelim (recursive : Bool) : GoStr :=
  if recursive then [] else ['/']

/-- The descriptor Walk hands to the callback for one listing item
    (gcs.go lines 169-185): directory markers become name-only files,
    objects carry size and update time; names are trimmed of the root
    path. -/
def entryOf (rootPath : GoStr) : Item → GFile
  | .dir d => ⟨0, 0, goTrimPfx d rootPath⟩
  | .obj name size updated => ⟨size, updated, goTrimPfx name rootPath⟩

/-- The descriptor a cursor step contributes to the traversal, if any. -/
def stepEntry (rootPath : GoStr) : IterStep → Option GFile
  | .item it => some (entryOf rootPath it)
  | .fail _ => none

/-- The Walk pagination loop (gcs.go lines 159-186) for a handle already
    borrowed: exhausting the steps is the iterator.Done case (return the
    handle, nil error); a cursor error or callback error invalidates the
    handle and aborts with that error.  The third component records the
    descriptors passed to the callback, in order. -/
def walkLoop (p1 : Pool) (h : Nat) (rootPath : GoStr) (visit : GFile → Option Nat) :
    List IterStep → Option Nat × Pool × List GFile
  | [] => (none, returnObject p1 h, [])
  | .fail e :: _ => (some e, invalidateObject p1 h, [])
  | .item it :: rest =>
    let f := entryOf rootPath it
    match visit f with
    | some e => (some e, invalidateObject p1 h, [f])
    | none =>
      let r := walkLoop p1 h rootPath visit rest
      (r.1, r.2.1, f :: r.2.2)

/-- GCS.Walk (gcs.go lines 138-187): borrow a handle (a borrow failure is
    returned as-is), compute the root path, and drive the pagination loop.
    The steps the cursor will yield are an oracle parameter; walkOnKeys
    instantiates them from the listing model. -/
def walk (p : Pool) (cfg : GCSConfig) (gcsPath : GoStr) (recursive : Bool)
    (steps : List IterStep) (visit : GFile → Option Nat) (borrowErr : Option Nat) :
    Option Nat × Pool × List GFile :=
  match borrowErr with
  | some e => (some e, p, [])
  | none =>
    let hp := borrowObject p
    let _ := walkDelim recursive
    walkLoop hp.2 hp.1 (walkRootPath cfg gcsPath) visit steps

/-- GCS.Walk against a bucket holding exactly the given keys: the cursor
    steps are the ones the listing model produces for the query prefix and
    delimiter Walk computes. -/
def walkOnKeys (p : Pool) (cfg : GCSConfig) (gcsPath : GoStr) (recursive : Bool)
    (keys : List (GoStr × Int × Nat)) (visit : GFile → Option Nat)
    (borrowErr : Option Nat) : Option Nat × Pool × List GFile :=
  walk p cfg gcsPath recursive
    (stepsOfItems (gcsList (walkQueryPfx cfg gcsPath) (walkDelim recursive) keys none))
    visit borrowErr

/-! ## Read, write, stat, delete, copy -/

/-- GCS.GetFileReader (gcs.go lines 189-204): borrow, open a reader on the
    primary-root key; an open failure invalidates the handle, success
    returns the handle immediately and yields the object content (the
    stream does not hold the pooled handle). -/
def getFileReader (p : Pool) (cfg : GCSConfig) (st : Store)
    (borrowErr openErr : Option Nat) (key : GoStr) :
    Except Nat (List Nat) × Pool :=
  match borrowErr with
  | some e => (.error e, p)
  | none =>
    let hp := borrowObject p
    match openErr with
    | some e => (.error e, invalidateObject hp.2 hp.1)
    | none =>
      let content := ((storeLookup st (goPathJoin [cfg.path, key])).map
        (·.content)).getD []
      (.ok content, returnObject hp.2 hp.1)

/-- GCS.GetFileReaderWithLocalPath (gcs.go lines 206-208): delegates to
    GetFileReader, discarding the local-path argument. -/
def getFileReaderWithLocalPath (p : Pool) (cfg : GCSConfig) (st : Store)
    (borrowErr openErr : Option Nat) (key _localPath : GoStr) :
    Except Nat (List Nat) × Pool :=
  getFileReader p cfg st borrowErr openErr key

/-- The fixed copy buffer size of PutFile: 512 KiB. -/
def copyBufSize : Nat := 512 * 1024

/-- Split a list into chunks of at most n elements, the successive reads
    io.CopyBuffer performs with an n-byte buffer. -/
def chunkList (n : Nat) (l : List Nat) : List (List Nat) :=
  if l = [] ∨ n = 0 then []
  else l.take n :: chunkList n (l.drop n)
termination_by l.length
decreasing_by
  rename_i hcond
  push_neg at hcond
  have hlen : 0 < l.length := List.length_pos.mpr hcond.1
  simp only [List.length_drop]
  omega

/-- GCS.PutFile (gcs.go lines 210-236): borrow, open a writer on the
    primary-root key with the configured storage class and (when non-empty)
    metadata labels, copy the stream through the 512 KiB buffer, then close
    the writer in a deferred block.  The object becomes durable only when
    both the copy and the close succeed; a close failure invalidates the
    handle (and is only logged), otherwise the handle is returned.  The
    value PutFile returns is the copy error alone, because the deferred
    close cannot change the return value. -/
def putFile (p : Pool) (cfg : GCSConfig) (st : Store)
    (borrowErr copyErr closeErr : Option Nat) (key : GoStr) (data : List Nat) :
    Option Nat × Store × Pool :=
  match borrowErr with
  | some e => (some e, st, p)
  | none =>
    let hp := borrowObject p
    let fullKey := goPathJoin [cfg.path, key]
    let labels := if 0 < cfg.objectLabels.length then cfg.objectLabels else []
    let st1 :=
      if copyErr = none ∧ closeErr = none then
        storeSet st fullKey ⟨(chunkList copyBufSize data).flatten, cfg.storageCls, labels⟩
      else st
    match closeErr with
    | some _ => (copyErr, st1, invalidateObject hp.2 hp.1)
    | none => (copyErr, st1, returnObject hp.2 hp.1)

/-- Stat errors: the stable not-found kind, or a backend error code. -/
inductive StatErr where
  | notFound
  | code (e : Nat)
deriving DecidableEq

/-- Outcome of the attributes fetch in StatFile: attributes, the
    object-missing sentinel (storage.ErrObjectNotExist), or another
    backend error. -/
inductive AttrsResult where
  | ok (size : Int) (updated : Nat) (name : GoStr)
  | notExist
  | err (e : Nat)
deriving DecidableEq

/-- GCS.StatFile (gcs.go lines 238-259): borrow, fetch attributes of the
    primary-root key.  The object-missing sentinel maps to the stable
    not-found error and the function returns at once, neither returning nor
    invalidating the borrowed handle; any other fetch error invalidates the
    handle; success returns the handle and the descriptor. -/
def statFile (p : Pool) (borrowErr : Option Nat) (a : AttrsResult) :
    Except StatErr GFile × Pool :=
  match borrowErr with
  | some e => (.error (.code e), p)
  | none =>
    let hp := borrowObject p
    match a with
    | .notExist => (.error .notFound, hp.2)
    | .err e => (.error (.code e), invalidateObject hp.2 hp.1)
    | .ok size updated name => (.ok ⟨size, updated, name⟩, returnObject hp.2 hp.1)

/-- GCS.deleteKey (gcs.go lines 261-276): borrow, delete the key; failure
    invalidates the handle, success removes the key and returns the
    handle. -/
def deleteKey (p : Pool) (st : Store) (borrowErr delErr : Option Nat) (key : GoStr) :
    Option Nat × Store × Pool :=
  match borrowErr with
  | some e => (some e, st, p)
  | none =>
    let hp := borrowObject p
    match delErr with
    | some e => (some e, st, invalidateObject hp.2 hp.1)
    | none => (none, storeErase st key, returnObject hp.2 hp.1)

/-- GCS.DeleteFile (gcs.go lines 278-281): primary-root key, then deleteKey. -/
def deleteFile (p : Pool) (cfg : GCSConfig) (st : Store)
    (borrowErr delErr : Option Nat) (key : GoStr) : Option Nat × Store × Pool :=
  deleteKey p st borrowErr delErr (goPathJoin [cfg.path, key])

/-- GCS.DeleteFileFromObjectDiskBackup (gcs.go lines 283-286):
    object-disk-root key, then deleteKey. -/
def deleteFileFromObjectDiskBackup (p : Pool) (cfg : GCSConfig) (st : Store)
    (borrowErr delErr : Option Nat) (key : GoStr) : Option Nat × Store × Pool :=
  deleteKey p st borrowErr delErr (goPathJoin [cfg.objectDiskPath, key])

/-- GCS.CopyObject (gcs.go lines 288-310): borrow, resolve the destination
    key through the object-disk root, fetch the source attributes, run the
    server-side copy; either failure invalidates the handle, success
    returns the handle and reports the size from the source attributes. -/
def copyObject (p : Pool) (cfg : GCSConfig) (st : Store2)
    (borrowErr : Option Nat) (attrsRes : Except Nat GFile) (runErr : Option Nat)
    (srcBucket srcKey dstKey : GoStr) : Except Nat Int × Store2 × Pool :=
  match borrowErr with
  | some e => (.error e, st, p)
  | none =>
    let hp := borrowObject p
    let dk := goPathJoin [cfg.objectDiskPath, dstKey]
    match attrsRes with
    | .error e => (.error e, st, invalidateObject hp.2 hp.1)
    | .ok attrs =>
      match runErr with
      | some e => (.error e, st, invalidateObject hp.2 hp.1)
      | none =>
        let content := (store2Lookup st srcBucket srcKey).getD ⟨[], [], []⟩
        (.ok attrs.size, store2Set st cfg.bucket dk content, returnObject hp.2 hp.1)

/-! ## The diagnostic transport -/

/-- An outbound request: method, URL and header pairs. -/
structure HttpReq where
  method : GoStr
  url : GoStr
  headers : List (GoStr × GoStr)
deriving DecidableEq

/-- A response: status, header pairs and body. -/
structure HttpResp where
  status : Nat
  headers : List (GoStr × GoStr)
  body : List Nat
deriving DecidableEq

/-- One header line of the request/response log. -/
def headerLines (hs : List (GoStr × GoStr)) : GoStr :=
  (hs.map (fun hv => hv.1 ++ ": ".data ++ hv.2 ++ "\n".data)).flatten

/-- debugGCSTransport.RoundTrip (gcs.go lines 41-63): log the request, call
    the wrapped base transport, log the error or the response, and return
    exactly what the base transport produced.  The base transport is a pure
    function from requests to a response/error pair; the second component
    of the result collects the log messages. -/
def roundTrip (base : HttpReq → Option HttpResp × Option Nat) (r : HttpReq) :
    (Option HttpResp × Option Nat) × List GoStr :=
  let reqLog := ">>> [GCS_REQUEST] >>> ".data ++ r.method ++ " ".data ++ r.url
    ++ "\n".data ++ headerLines r.headers
  let rr := base r
  match rr.2 with
  | some _ => (rr, [reqLog, "GCS_ERROR".data])
  | none =>
    let respLog := "<<< [GCS_RESPONSE] <<< ".data ++ r.method ++ " ".data ++ r.url
      ++ "\n".data ++ headerLines (((rr.1).map (·.headers)).getD [])
    (rr, [reqLog, respLog])

/-! ## Operation sequences against the pool -/

/-- One storage-client call together with the oracle outcomes of the
    backend calls it performs. -/
inductive Call where
  | walkC (cfg : GCSConfig) (gcsPath : GoStr) (recursive : Bool)
      (steps : List IterStep) (visit : GFile → Option Nat) (borrowErr : Option Nat)
  | getC (cfg : GCSConfig) (st : Store) (borrowErr openErr : Option Nat) (key : GoStr)
  | putC (cfg : GCSConfig) (st : Store) (borrowErr copyErr closeErr : Option Nat)
      (key : GoStr) (data : List Nat)
  | statC (borrowErr : Option Nat) (a : AttrsResult)
  | delC (st : Store) (borrowErr delErr : Option Nat) (key : GoStr)
  | copyC (cfg : GCSConfig) (st : Store2) (borrowErr : Option Nat)
      (attrsRes : Except Nat GFile) (runErr : Option Nat) (srcBucket srcKey dstKey : GoStr)

/-- The pool after one storage-client call. -/
def applyCall (p : Pool) : Call → Pool
  | .walkC cfg gp rcv steps visit be => (walk p cfg gp rcv steps visit be).2.1
  | .getC cfg st be oe k => (getFileReader p cfg st be oe k).2
  | .putC cfg st be ce we k d => (putFile p cfg st be ce we k d).2.2
  | .statC be a => (statFile p be a).2
  | .delC st be de k => (deleteKey p st be de k).2.2
  | .copyC cfg st be ar re sb sk dk => (copyObject p cfg st be ar re sb sk dk).2.2

/-- The pool after a sequence of storage-client calls. -/
def runCalls (p : Pool) : List Call → Pool
  | [] => p
  | c :: cs => runCalls (applyCall p c) cs

/-! ## Concrete fixtures used by the claim instances -/

/-- A configuration with an empty root path. -/
def cfgEmpty : GCSConfig := ⟨"bucket".data, "".data, "shadow".data, "".data, []⟩

/-- A configuration whose root path is the separator alone. -/
def cfgSlash : GCSConfig := ⟨"bucket".data, "/".data, "shadow".data, "".data, []⟩

/-- A configuration with root path b. -/
def cfgB : GCSConfig := ⟨"bucket".data, "b".data, "shadow".data, "".data, []⟩

/-- The bucket contents of the walk listing fixture: keys a/x, a/y and b
    with distinct sizes and update times. -/
def keys3 : List (GoStr × Int × Nat) :=
  [("a/x".data, 1, 1), ("a/y".data, 2, 2), ("b".data, 3, 3)]

/-! ## Helper lemmas: chunked copying -/

/-- Concatenating the chunks of a list restores the list, for any non-zero
    chunk size. -/
theorem chunkList_flatten (n : Nat) (hn : n ≠ 0) (l : List Nat) :
    (chunkList n l).flatten = l := by
  generalize hk : l.length = k
  induction k using Nat.strong_induction_on generalizing l with
  | _ k ih =>
    rw [chunkList]
    split
    · rename_i hc
      rcases hc with hc | hc
      · simp [hc]
      · exact absurd hc hn
    · rename_i hc
      push_neg at hc
      have hlen : 0 < l.length := List.length_pos.mpr hc.1
      have hdrop : (l.drop n).length < k := by
        subst hk
        simp only [List.length_drop]
        omega
      simp only [List.flatten_cons]
      rw [ih (l.drop n).length hdrop (l.drop n) rfl]
      exact List.take_append_drop n l


/-! ## Helper lemmas: pool transitions

Every storage-client call has one of four effects on the pool: leave it
unchanged (the borrow itself failed), or borrow one handle and then return
it, invalidate it, or keep it borrowed (the StatFile object-missing
path).  The shape lemmas below compute those four resulting pools in
record form, in the two cases of BorrowObject (idle handle reused or fresh
handle created). -/

theorem opShapes_nil (p : Pool) (hi : p.idle = []) :
    (borrowObject p).1 = p.next ∧
    (borrowObject p).2 = ⟨[], p.next :: p.borrowed, p.invalidated, p.next + 1⟩ ∧
    returnObject (borrowObject p).2 (borrowObject p).1 =
      ⟨[p.next], p.borrowed, p.invalidated, p.next + 1⟩ ∧
    invalidateObject (borrowObject p).2 (borrowObject p).1 =
      ⟨[], p.borrowed, p.next :: p.invalidated, p.next + 1⟩ := by
  cases p
  simp_all only [borrowObject, returnObject, invalidateObject]
  simp [List.erase_cons_head]

theorem opShapes_cons (p : Pool) (c : Nat) (rest : List Nat)
    (hi : p.idle = c :: rest) :
    (borrowObject p).1 = c ∧
    (borrowObject p).2 = ⟨rest, c :: p.borrowed, p.invalidated, p.next⟩ ∧
    returnObject (borrowObject p).2 (borrowObject p).1 =
      ⟨c :: rest, p.borrowed, p.invalidated, p.next⟩ ∧
    invalidateObject (borrowObject p).2 (borrowObject p).1 =
      ⟨rest, p.borrowed, c :: p.invalidated, p.next⟩ := by
  cases p
  simp_all only [borrowObject, returnObject, invalidateObject]
  simp [List.erase_cons_head]

theorem opReturn_borrowed (p : Pool) :
    (returnObject (borrowObject p).2 (borrowObject p).1).borrowed = p.borrowed := by
  cases hi : p.idle with
  | nil => rw [(opShapes_nil p hi).2.2.1]
  | cons c rest => rw [(opShapes_cons p c rest hi).2.2.1]

theorem opReturn_invalidated (p : Pool) :
    (returnObject (borrowObject p).2 (borrowObject p).1).invalidated =
      p.invalidated := by
  cases hi : p.idle with
  | nil => rw [(opShapes_nil p hi).2.2.1]
  | cons c rest => rw [(opShapes_cons p c rest hi).2.2.1]

theorem opInval_borrowed (p : Pool) :
    (invalidateObject (borrowObject p).2 (borrowObject p).1).borrowed =
      p.borrowed := by
  cases hi : p.idle with
  | nil => rw [(opShapes_nil p hi).2.2.2]
  | cons c rest => rw [(opShapes_cons p c rest hi).2.2.2]

theorem opInval_invalidated (p : Pool) :
    (invalidateObject (borrowObject p).2 (borrowObject p).1).invalidated =
      (borrowObject p).1 :: p.invalidated := by
  cases hi : p.idle with
  | nil => rw [(opShapes_nil p hi).2.2.2, (opShapes_nil p hi).1]
  | cons c rest => rw [(opShapes_cons p c rest hi).2.2.2, (opShapes_cons p c rest hi).1]

theorem opLeak_borrowed (p : Pool) :
    (borrowObject p).2.borrowed = (borrowObject p).1 :: p.borrowed := by
  cases hi : p.idle with
  | nil => rw [(opShapes_nil p hi).2.1, (opShapes_nil p hi).1]
  | cons c rest => rw [(opShapes_cons p c rest hi).2.1, (opShapes_cons p c rest hi).1]

theorem opLeak_invalidated (p : Pool) :
    (borrowObject p).2.invalidated = p.invalidated := by
  cases hi : p.idle with
  | nil => rw [(opShapes_nil p hi).2.1]
  | cons c rest => rw [(opShapes_cons p c rest hi).2.1]

/-- The handle BorrowObject hands out is never a destroyed one and never one
    that is currently borrowed. -/
theorem borrowObject_fresh (p : Pool) (hp : PoolWF p) :
    (borrowObject p).1 ∉ p.invalidated ∧ (borrowObject p).1 ∉ p.borrowed := by
  obtain ⟨hni, hnb, hnv, hib, hbv, hvn⟩ := hp
  cases hi : p.idle with
  | nil =>
    rw [(opShapes_nil p hi).1]
    exact ⟨fun hmem => absurd (hvn _ hmem) (by omega),
      fun hmem => absurd (hbv _ hmem).2 (by omega)⟩
  | cons c rest =>
    rw [(opShapes_cons p c rest hi).1]
    have hc := hib c (by rw [hi]; exact List.mem_cons_self c rest)
    exact ⟨hc.2.1, hc.1⟩

theorem PoolWF_opLeak (p : Pool) (hp : PoolWF p) : PoolWF (borrowObject p).2 := by
  obtain ⟨hni, hnb, hnv, hib, hbv, hvn⟩ := hp
  cases hi : p.idle with
  | nil =>
    rw [(opShapes_nil p hi).2.1]
    simp only [PoolWF]
    refine ⟨List.nodup_nil, ?_, hnv, ?_, ?_, ?_⟩
    · exact List.nodup_cons.mpr ⟨fun hmem => absurd (hbv _ hmem).2 (by omega), hnb⟩
    · intro h hmem; simp at hmem
    · intro h hmem
      simp only [List.mem_cons] at hmem
      rcases hmem with rfl | hmem
      · exact ⟨fun hmem2 => absurd (hvn _ hmem2) (by omega), by omega⟩
      · exact ⟨(hbv _ hmem).1, by have := (hbv _ hmem).2; omega⟩
    · intro h hmem
      have := hvn _ hmem; omega
  | cons c rest =>
    rw [(opShapes_cons p c rest hi).2.1]
    simp only [PoolWF]
    have hc := hib c (by rw [hi]; exact List.mem_cons_self c rest)
    have hcr : c ∉ rest := (List.nodup_cons.mp (hi ▸ hni)).1
    have hnr : rest.Nodup := (List.nodup_cons.mp (hi ▸ hni)).2
    have hrest : ∀ h ∈ rest, h ∈ p.idle := fun h hmem => by
      rw [hi]; exact List.mem_cons_of_mem c hmem
    refine ⟨hnr, List.nodup_cons.mpr ⟨hc.1, hnb⟩, hnv, ?_, ?_, hvn⟩
    · intro h hmem
      have hidle := hib h (hrest h hmem)
      have hne : h ≠ c := fun heq => hcr (heq ▸ hmem)
      refine ⟨?_, hidle.2.1, hidle.2.2⟩
      simp only [List.mem_cons]
      rintro (rfl | hmem2)
      · exact hne rfl
      · exact hidle.1 hmem2
    · intro h hmem
      simp only [List.mem_cons] at hmem
      rcases hmem with rfl | hmem
      · exact ⟨hc.2.1, hc.2.2⟩
      · exact hbv _ hmem

theorem PoolWF_opReturn (p : Pool) (hp : PoolWF p) :
    PoolWF (returnObject (borrowObject p).2 (borrowObject p).1) := by
  obtain ⟨hni, hnb, hnv, hib, hbv, hvn⟩ := hp
  cases hi : p.idle with
  | nil =>
    rw [(opShapes_nil p hi).2.2.1]
    simp only [PoolWF]
    refine ⟨List.nodup_singleton _, hnb, hnv, ?_, ?_, ?_⟩
    · intro h hmem
      simp only [List.mem_singleton] at hmem
      subst hmem
      exact ⟨fun hmem2 => absurd (hbv _ hmem2).2 (by omega),
        fun hmem2 => absurd (hvn _ hmem2) (by omega), by omega⟩
    · intro h hmem
      exact ⟨(hbv _ hmem).1, by have := (hbv _ hmem).2; omega⟩
    · intro h hmem
      have := hvn _ hmem; omega
  | cons c rest =>
    rw [(opShapes_cons p c rest hi).2.2.1, ← hi]
    cases p
    exact ⟨hni, hnb, hnv, hib, hbv, hvn⟩

theorem PoolWF_opInval (p : Pool) (hp : PoolWF p) :
    PoolWF (invalidateObject (borrowObject p).2 (borrowObject p).1) := by
  obtain ⟨hni, hnb, hnv, hib, hbv, hvn⟩ := hp
  cases hi : p.idle with
  | nil =>
    rw [(opShapes_nil p hi).2.2.2]
    simp only [PoolWF]
    refine ⟨List.nodup_nil, hnb, ?_, ?_, ?_, ?_⟩
    · exact List.nodup_cons.mpr ⟨fun hmem => absurd (hvn _ hmem) (by omega), hnv⟩
    · intro h hmem; simp at hmem
    · intro h hmem
      have hb := hbv _ hmem
      refine ⟨?_, by have := hb.2; omega⟩
      simp only [List.mem_cons]
      rintro (rfl | hmem2)
      · exact absurd hb.2 (by omega)
      · exact hb.1 hmem2
    · intro h hmem
      simp only [List.mem_cons] at hmem
      rcases hmem with rfl | hmem
      · omega
      · have := hvn _ hmem; omega
  | cons c rest =>
    rw [(opShapes_cons p c rest hi).2.2.2]
    simp only [PoolWF]
    have hc := hib c (by rw [hi]; exact List.mem_cons_self c rest)
    have hcr : c ∉ rest := (List.nodup_cons.mp (hi ▸ hni)).1
    have hnr : rest.Nodup := (List.nodup_cons.mp (hi ▸ hni)).2
    have hrest : ∀ h ∈ rest, h ∈ p.idle := fun h hmem => by
      rw [hi]; exact List.mem_cons_of_mem c hmem
    refine ⟨hnr, hnb, List.nodup_cons.mpr ⟨hc.2.1, hnv⟩, ?_, ?_, ?_⟩
    · intro h hmem
      have hidle := hib h (hrest h hmem)
      have hne : h ≠ c := fun heq => hcr (heq ▸ hmem)
      refine ⟨hidle.1, ?_, hidle.2.2⟩
      simp only [List.mem_cons]
      rintro (rfl | hmem2)
      · exact hne rfl
      · exact hidle.2.1 hmem2
    · intro h hmem
      have hb := hbv _ hmem
      refine ⟨?_, hb.2⟩
      simp only [List.mem_cons]
      rintro (rfl | hmem2)
      · exact hc.1 hmem
      · exact hb.1 hmem2
    · intro h hmem
      simp only [List.mem_cons] at hmem
      rcases hmem with rfl | hmem
      · exact hc.2.2
      · exact hvn _ hmem
/-! ## Helper lemmas: the traversal loop -/

/-- The pagination loop either consumes every step and returns the handle
    with a nil error, or stops at the first abnormality, invalidating the
    handle and reporting some error. -/
theorem walkLoop_pool (p1 : Pool) (h : Nat) (rootPath : GoStr)
    (visit : GFile → Option Nat) (steps : List IterStep) :
    ((walkLoop p1 h rootPath visit steps).1 = none ∧
      (walkLoop p1 h rootPath visit steps).2.1 = returnObject p1 h) ∨
    (∃ e, (walkLoop p1 h rootPath visit steps).1 = some e ∧
      (walkLoop p1 h rootPath visit steps).2.1 = invalidateObject p1 h) := by
  induction steps with
  | nil => exact Or.inl ⟨rfl, rfl⟩
  | cons s rest ih =>
    cases s with
    | fail e => exact Or.inr ⟨e, rfl, rfl⟩
    | item it =>
      cases hv : visit (entryOf rootPath it) with
      | some e =>
        refine Or.inr ⟨e, ?_, ?_⟩ <;> simp [walkLoop, hv]
      | none =>
        simpa only [walkLoop, hv] using ih

/-- A loop over steps that contain no cursor error and whose entries the
    callback all accepts succeeds, returns the handle and visits exactly the
    entries of the steps, in order. -/
theorem walkLoop_success (p1 : Pool) (h : Nat) (rootPath : GoStr)
    (visit : GFile → Option Nat) (steps : List IterStep)
    (hfail : ∀ e, IterStep.fail e ∉ steps)
    (hvisit : ∀ it, IterStep.item it ∈ steps → visit (entryOf rootPath it) = none) :
    walkLoop p1 h rootPath visit steps =
      (none, returnObject p1 h, steps.filterMap (stepEntry rootPath)) := by
  induction steps with
  | nil => rfl
  | cons s rest ih =>
    cases s with
    | fail e => exact absurd (List.mem_cons_self _ _) (hfail e)
    | item it =>
      have hv := hvisit it (List.mem_cons_self _ _)
      have ihr := ih (fun e hc => hfail e (List.mem_cons_of_mem _ hc))
        (fun it2 hmem => hvisit it2 (List.mem_cons_of_mem _ hmem))
      simp only [walkLoop, hv, List.filterMap_cons, stepEntry, ihr]

/-- A cursor error reached after steps the callback accepted aborts the
    loop with exactly that error, invalidating the handle; only the earlier
    entries were visited. -/
theorem walkLoop_first_fail (p1 : Pool) (h : Nat) (rootPath : GoStr)
    (visit : GFile → Option Nat) (pre : List IterStep)
    (hpre : ∀ s ∈ pre, ∃ it, s = IterStep.item it ∧ visit (entryOf rootPath it) = none)
    (e : Nat) (rest : List IterStep) :
    walkLoop p1 h rootPath visit (pre ++ IterStep.fail e :: rest) =
      (some e, invalidateObject p1 h, pre.filterMap (stepEntry rootPath)) := by
  induction pre with
  | nil => rfl
  | cons s pre2 ih =>
    obtain ⟨it, rfl, hv⟩ := hpre s (List.mem_cons_self _ _)
    have ihr := ih (fun s2 hmem => hpre s2 (List.mem_cons_of_mem _ hmem))
    simp only [List.cons_append, walkLoop, hv, stepEntry, List.filterMap_cons,
      List.append_eq, ihr]

/-- A callback rejection reached after steps the callback accepted aborts
    the loop with exactly the callback error, invalidating the handle; the
    rejected entry is the last one visited. -/
theorem walkLoop_first_visit_err (p1 : Pool) (h : Nat) (rootPath : GoStr)
    (visit : GFile → Option Nat) (pre : List IterStep)
    (hpre : ∀ s ∈ pre, ∃ it, s = IterStep.item it ∧ visit (entryOf rootPath it) = none)
    (it : Item) (e : Nat) (hv : visit (entryOf rootPath it) = some e)
    (rest : List IterStep) :
    walkLoop p1 h rootPath visit (pre ++ IterStep.item it :: rest) =
      (some e, invalidateObject p1 h,
        pre.filterMap (stepEntry rootPath) ++ [entryOf rootPath it]) := by
  induction pre with
  | nil => simp only [List.nil_append, walkLoop, hv, List.filterMap_nil]
  | cons s pre2 ih =>
    obtain ⟨it2, rfl, hv2⟩ := hpre s (List.mem_cons_self _ _)
    have ihr := ih (fun s2 hmem => hpre s2 (List.mem_cons_of_mem _ hmem))
    simp only [List.cons_append, walkLoop, hv2, stepEntry, List.filterMap_cons,
      List.append_eq, ihr]

/-! ## Helper lemmas: call sequences -/

/-- Every storage-client call leaves the pool unchanged, or borrows one
    handle and then returns it, invalidates it, or keeps it borrowed. -/
theorem applyCall_shape (p : Pool) (c : Call) :
    applyCall p c = p ∨
    applyCall p c = returnObject (borrowObject p).2 (borrowObject p).1 ∨
    applyCall p c = invalidateObject (borrowObject p).2 (borrowObject p).1 ∨
    applyCall p c = (borrowObject p).2 := by
  cases c with
  | walkC cfg gp rcv steps visit be =>
    cases be with
    | some e => exact Or.inl rfl
    | none =>
      rcases walkLoop_pool (borrowObject p).2 (borrowObject p).1
          (walkRootPath cfg gp) visit steps with ⟨_, hpool⟩ | ⟨e, _, hpool⟩
      · exact Or.inr (Or.inl (by simpa only [applyCall, walk] using hpool))
      · exact Or.inr (Or.inr (Or.inl (by simpa only [applyCall, walk] using hpool)))
  | getC cfg st be oe k =>
    cases be with
    | some e => exact Or.inl rfl
    | none =>
      cases oe with
      | some e => exact Or.inr (Or.inr (Or.inl rfl))
      | none => exact Or.inr (Or.inl rfl)
  | putC cfg st be ce we k d =>
    cases be with
    | some e => exact Or.inl rfl
    | none =>
      cases we with
      | some e => exact Or.inr (Or.inr (Or.inl rfl))
      | none => exact Or.inr (Or.inl rfl)
  | statC be a =>
    cases be with
    | some e => exact Or.inl rfl
    | none =>
      cases a with
      | notExist => exact Or.inr (Or.inr (Or.inr rfl))
      | err e => exact Or.inr (Or.inr (Or.inl rfl))
      | ok sz up nm => exact Or.inr (Or.inl rfl)
  | delC st be de k =>
    cases be with
    | some e => exact Or.inl rfl
    | none =>
      cases de with
      | some e => exact Or.inr (Or.inr (Or.inl rfl))
      | none => exact Or.inr (Or.inl rfl)
  | copyC cfg st be ar re sb sk dk =>
    cases be with
    | some e => exact Or.inl rfl
    | none =>
      cases ar with
      | error e => exact Or.inr (Or.inr (Or.inl rfl))
      | ok a =>
        cases re with
        | some e => exact Or.inr (Or.inr (Or.inl rfl))
        | none => exact Or.inr (Or.inl rfl)

theorem applyCall_WF (p : Pool) (c : Call) (hp : PoolWF p) :
    PoolWF (applyCall p c) := by
  rcases applyCall_shape p c with hh | hh | hh | hh <;> rw [hh]
  exacts [hp, PoolWF_opReturn p hp, PoolWF_opInval p hp, PoolWF_opLeak p hp]

theorem applyCall_inval_mono (p : Pool) (c : Call) :
    p.invalidated ⊆ (applyCall p c).invalidated := by
  rcases applyCall_shape p c with hh | hh | hh | hh <;> rw [hh]
  · exact fun _ hmem => hmem
  · rw [opReturn_invalidated]
    exact fun _ hmem => hmem
  · rw [opInval_invalidated]
    exact fun _ hmem => List.mem_cons_of_mem _ hmem
  · rw [opLeak_invalidated]
    exact fun _ hmem => hmem

theorem applyCall_borrowed_mono (p : Pool) (c : Call) :
    p.borrowed ⊆ (applyCall p c).borrowed := by
  rcases applyCall_shape p c with hh | hh | hh | hh <;> rw [hh]
  · exact fun _ hmem => hmem
  · rw [opReturn_borrowed]
    exact fun _ hmem => hmem
  · rw [opInval_borrowed]
    exact fun _ hmem => hmem
  · rw [opLeak_borrowed]
    exact fun _ hmem => List.mem_cons_of_mem _ hmem

/-- The pool invariant over any call sequence: well-formedness is
    preserved, destroyed handles stay destroyed, handles left borrowed stay
    borrowed. -/
theorem runCalls_invariant (calls : List Call) (p : Pool) (hp : PoolWF p) :
    PoolWF (runCalls p calls) ∧
    p.invalidated ⊆ (runCalls p calls).invalidated ∧
    p.borrowed ⊆ (runCalls p calls).borrowed := by
  induction calls generalizing p with
  | nil => exact ⟨hp, fun _ hmem => hmem, fun _ hmem => hmem⟩
  | cons c cs ih =>
    obtain ⟨hwf, hinv, hbor⟩ := ih (applyCall p c) (applyCall_WF p c hp)
    exact ⟨hwf, (applyCall_inval_mono p c).trans hinv,
      (applyCall_borrowed_mono p c).trans hbor⟩

/-- In a well-formed pool no destroyed handle sits in the idle set. -/
theorem PoolWF_inval_not_idle (p : Pool) (hp : PoolWF p) :
    ∀ h ∈ p.invalidated, h ∉ p.idle := by
  intro h hmem hid
  exact (hp.2.2.2.1 h hid).2.1 hmem


/-! ## Store lookup lemmas -/

theorem storeLookup_set (st : Store) (k : GoStr) (v : StoredObject) :
    storeLookup (storeSet st k v) k = some v := by
  simp [storeLookup, storeSet]

theorem store2Lookup_set (st : Store2) (b k : GoStr) (v : StoredObject) :
    store2Lookup (store2Set st b k v) b k = some v := by
  simp [store2Lookup, store2Set]

/-- Reduction of Walk to its pagination loop once the borrow succeeded. -/
theorem walk_none_eq (p : Pool) (cfg : GCSConfig) (gp : GoStr) (rcv : Bool)
    (steps : List IterStep) (visit : GFile → Option Nat) :
    walk p cfg gp rcv steps visit none =
      walkLoop (borrowObject p).2 (borrowObject p).1 (walkRootPath cfg gp)
        visit steps := rfl

/-! ## Claims -/

/-- C1: StatFile on a missing key does return the stable NotFound error
    kind, but the borrowed pool handle is neither returned to the idle pool
    nor invalidated: the object-missing branch of the source returns before
    either call, so the handle stays borrowed forever (leaked).  Evaluated
    at the failing input (fresh pool, attributes fetch reporting the
    object-missing sentinel): the result is the NotFound kind and the pool
    afterwards has an empty idle set with handle 0 still borrowed.  The
    claim and the specification instead require the handle to re-enter the
    idle pool, so this is a code bug. -/
theorem statFile_missing_key_leaks_handle :
    (statFile pool0 none AttrsResult.notExist).1 = Except.error StatErr.notFound ∧
    (statFile pool0 none AttrsResult.notExist).2 = ⟨[], [0], [], 1⟩ :=
  ⟨rfl, rfl⟩

/-- C2: when the stream copy succeeds but closing the write stream fails,
    PutFile invalidates the borrowed handle yet returns a nil error: the
    close happens in a deferred block that cannot change the already
    computed return value, so the close failure is only logged.  Evaluated
    at the failing input (fresh pool, copy oracle nil, close oracle error
    7): the returned error is nil while the handle was invalidated.  The
    claim and the specification require the close failure to be surfaced as
    the returned error, so this is a code bug. -/
theorem putFile_close_failure_not_surfaced :
    (putFile pool0 cfgEmpty [] none none (some 7) "k".data [1, 2]).1 = none ∧
    (putFile pool0 cfgEmpty [] none none (some 7) "k".data [1, 2]).2.2 =
      ⟨[], [], [0], 1⟩ :=
  ⟨rfl, rfl⟩

/-- C3 counterexample: a backend call can fail while the borrowed handle is
    not invalidated before the error is returned.  With a fresh pool and an
    attributes fetch reporting the object-missing sentinel, StatFile
    returns an error, yet the invalidated set stays empty and handle 0 is
    still borrowed. -/
theorem statFile_failed_call_without_invalidation :
    (statFile pool0 none AttrsResult.notExist).1 = Except.error StatErr.notFound ∧
    (statFile pool0 none AttrsResult.notExist).2.invalidated = [] ∧
    (statFile pool0 none AttrsResult.notExist).2.borrowed = [0] :=
  ⟨rfl, rfl, rfl⟩

/-- C3 (amended): backend failures in StatFile (other than the
    object-missing case), GetFileReader, deleteKey and CopyObject, and
    write-finalization failures in PutFile, invalidate the borrowed handle
    before the error is returned; the object-missing case of StatFile
    leaves its handle borrowed forever, and a PutFile whose copy fails but
    whose close succeeds returns its handle to the idle pool; a Walk that
    reports an error has invalidated its handle.  Over any sequence of
    operations from a well-formed pool, well-formedness is preserved,
    invalidated handles stay invalidated and never appear idle, handles
    left borrowed stay borrowed, and a subsequent acquire never hands out
    an invalidated (or still borrowed) handle. -/
theorem gcs_handle_lifecycle_discipline :
    (∀ (p : Pool) (e : Nat),
      statFile p none (AttrsResult.err e) =
        (Except.error (StatErr.code e),
          invalidateObject (borrowObject p).2 (borrowObject p).1)) ∧
    (∀ (p : Pool),
      statFile p none AttrsResult.notExist =
        (Except.error StatErr.notFound, (borrowObject p).2)) ∧
    (∀ (p : Pool) (cfg : GCSConfig) (st : Store) (e : Nat) (k : GoStr),
      getFileReader p cfg st none (some e) k =
        (Except.error e, invalidateObject (borrowObject p).2 (borrowObject p).1)) ∧
    (∀ (p : Pool) (st : Store) (e : Nat) (k : GoStr),
      deleteKey p st none (some e) k =
        (some e, st, invalidateObject (borrowObject p).2 (borrowObject p).1)) ∧
    (∀ (p : Pool) (cfg : GCSConfig) (st : Store2) (e : Nat) (re : Option Nat)
        (sb sk dk : GoStr),
      copyObject p cfg st none (Except.error e) re sb sk dk =
        (Except.error e, st,
          invalidateObject (borrowObject p).2 (borrowObject p).1)) ∧
    (∀ (p : Pool) (cfg : GCSConfig) (st : Store2) (a : GFile) (e : Nat)
        (sb sk dk : GoStr),
      copyObject p cfg st none (Except.ok a) (some e) sb sk dk =
        (Except.error e, st,
          invalidateObject (borrowObject p).2 (borrowObject p).1)) ∧
    (∀ (p : Pool) (cfg : GCSConfig) (st : Store) (ce : Option Nat) (e : Nat)
        (k : GoStr) (d : List Nat),
      (putFile p cfg st none ce (some e) k d).1 = ce ∧
      (putFile p cfg st none ce (some e) k d).2.2 =
        invalidateObject (borrowObject p).2 (borrowObject p).1) ∧
    (∀ (p : Pool) (cfg : GCSConfig) (st : Store) (e : Nat) (k : GoStr)
        (d : List Nat),
      putFile p cfg st none (some e) none k d =
        (some e, st, returnObject (borrowObject p).2 (borrowObject p).1)) ∧
    (∀ (p : Pool) (cfg : GCSConfig) (gp : GoStr) (rcv : Bool)
        (steps : List IterStep) (visit : GFile → Option Nat) (e : Nat),
      (walk p cfg gp rcv steps visit none).1 = some e →
        (walk p cfg gp rcv steps visit none).2.1 =
          invalidateObject (borrowObject p).2 (borrowObject p).1) ∧
    (∀ (p : Pool) (calls : List Call), PoolWF p →
      PoolWF (runCalls p calls) ∧
      p.invalidated ⊆ (runCalls p calls).invalidated ∧
      p.borrowed ⊆ (runCalls p calls).borrowed ∧
      (∀ h ∈ (runCalls p calls).invalidated, h ∉ (runCalls p calls).idle) ∧
      (borrowObject (runCalls p calls)).1 ∉ (runCalls p calls).invalidated ∧
      (borrowObject (runCalls p calls)).1 ∉ (runCalls p calls).borrowed) := by
  refine ⟨fun p e => rfl, fun p => rfl, fun p cfg st e k => rfl,
    fun p st e k => rfl, fun p cfg st e re sb sk dk => rfl,
    fun p cfg st a e sb sk dk => rfl, fun p cfg st ce e k d => ⟨rfl, rfl⟩,
    fun p cfg st e k d => rfl, ?_, ?_⟩
  · intro p cfg gp rcv steps visit e herr
    rw [walk_none_eq] at herr ⊢
    rcases walkLoop_pool (borrowObject p).2 (borrowObject p).1
        (walkRootPath cfg gp) visit steps with ⟨h1, _⟩ | ⟨e2, _, h2⟩
    · rw [h1] at herr; exact absurd herr (by simp)
    · exact h2
  · intro p calls hp
    obtain ⟨hwf, hinv, hbor⟩ := runCalls_invariant calls p hp
    exact ⟨hwf, hinv, hbor, PoolWF_inval_not_idle _ hwf,
      (borrowObject_fresh _ hwf).1, (borrowObject_fresh _ hwf).2⟩

/-- C3 witness: the discipline theorem applied to a concrete run (a fresh
    pool and one StatFile call whose attributes fetch fails with a backend
    error) and to a concrete Walk whose first cursor step errors. -/
theorem gcs_handle_lifecycle_discipline_witness :
    (PoolWF (runCalls pool0 [Call.statC none (AttrsResult.err 5)]) ∧
      (borrowObject (runCalls pool0 [Call.statC none (AttrsResult.err 5)])).1 ∉
        (runCalls pool0 [Call.statC none (AttrsResult.err 5)]).invalidated) ∧
    (walk pool0 cfgSlash "".data false [IterStep.fail 3] (fun _ => none) none).2.1 =
      invalidateObject (borrowObject pool0).2 (borrowObject pool0).1 := by
  constructor
  · have hrun := (gcs_handle_lifecycle_discipline.2.2.2.2.2.2.2.2.2)
      pool0 [Call.statC none (AttrsResult.err 5)] (by decide)
    exact ⟨hrun.1, hrun.2.2.2.2.1⟩
  · exact (gcs_handle_lifecycle_discipline.2.2.2.2.2.2.2.2.1)
      pool0 cfgSlash "".data false [IterStep.fail 3] (fun _ => none) 3 (by decide)

/-- C4 counterexample: with an empty configured root and an empty relative
    path, the computed root is the empty string, not the separator, so the
    listing prefix Walk uses is the lone separator rather than the empty
    string the claim requires. -/
theorem walkQueryPfx_emptyRoot_counterexample :
    walkQueryPfx cfgEmpty "".data = "/".data ∧
    walkQueryPfx cfgEmpty "".data ≠ "".data := by
  constructor <;> decide

/-- C4 (amended): the listing prefix Walk uses is the primary-root-joined
    key followed by the separator, except when the joined root equals the
    lone separator, in which case the prefix is empty.  An empty relative
    path under an empty configured root joins to the empty string, not the
    lone separator, so its prefix is the separator, not the empty string;
    a configured root equal to the separator does collapse to the empty
    prefix. -/
theorem walkQueryPfx_characterization :
    (∀ (cfg : GCSConfig) (gp : GoStr), walkRootPath cfg gp = "/".data →
      walkQueryPfx cfg gp = "".data) ∧
    (∀ (cfg : GCSConfig) (gp : GoStr), walkRootPath cfg gp ≠ "/".data →
      walkQueryPfx cfg gp = walkRootPath cfg gp ++ "/".data) ∧
    walkRootPath cfgEmpty "".data = "".data ∧
    walkQueryPfx cfgEmpty "".data = "/".data ∧
    walkRootPath cfgSlash "".data = "/".data ∧
    walkQueryPfx cfgSlash "".data = "".data ∧
    walkQueryPfx cfgB "x".data = "b/x/".data := by
  refine ⟨?_, ?_, by decide, by decide, by decide, by decide, by decide⟩
  · intro cfg gp hroot
    have hroot2 : walkRootPath cfg gp = ['/'] := hroot
    show (if walkRootPath cfg gp = ['/'] then ([] : GoStr)
      else walkRootPath cfg gp ++ ['/']) = "".data
    rw [if_pos hroot2]
  · intro cfg gp hroot
    have hroot2 : walkRootPath cfg gp ≠ ['/'] := hroot
    show (if walkRootPath cfg gp = ['/'] then ([] : GoStr)
      else walkRootPath cfg gp ++ ['/']) = walkRootPath cfg gp ++ "/".data
    rw [if_neg hroot2]

/-- C4 witness: the characterization applied at a root path equal to the
    separator and at an ordinary root path. -/
theorem walkQueryPfx_characterization_witness :
    walkQueryPfx cfgSlash "".data = "".data ∧
    walkQueryPfx cfgB "x".data = "b/x/".data :=
  ⟨walkQueryPfx_characterization.1 cfgSlash "".data (by decide),
    walkQueryPfx_characterization.2.1 cfgB "x".data (by decide)⟩

/-- C5 counterexample: with the configuration the claim names (empty
    configured root and empty relative path) over the bucket keys a/x, a/y
    and b, the computed listing prefix is the lone separator, which no key
    matches, so both the non-recursive and the recursive walk visit no
    entries at all rather than the claimed two and three entries. -/
theorem walk_emptyRoot_visits_no_entries :
    (walkOnKeys pool0 cfgEmpty "".data false keys3 (fun _ => none) none).2.2 = [] ∧
    (walkOnKeys pool0 cfgEmpty "".data true keys3 (fun _ => none) none).2.2 = [] := by
  constructor <;> decide

/-- C5 (amended): when the joined root is the lone separator (configured
    root equal to the separator, empty relative path), a non-recursive walk
    over the bucket keys a/x, a/y and b visits exactly a directory entry
    named a/ followed by the object entry b, succeeding with a nil error,
    and a recursive walk visits exactly the three object entries, never
    deeper descendants in the non-recursive case.  With an empty configured
    root and empty relative path the walk instead visits nothing. -/
theorem walk_namespaceRoot_listing_entries :
    (walkOnKeys pool0 cfgSlash "".data false keys3 (fun _ => none) none).1 = none ∧
    (walkOnKeys pool0 cfgSlash "".data false keys3 (fun _ => none) none).2.2 =
      [⟨0, 0, "a/".data⟩, ⟨3, 3, "b".data⟩] ∧
    (walkOnKeys pool0 cfgSlash "".data true keys3 (fun _ => none) none).2.2 =
      [⟨1, 1, "a/x".data⟩, ⟨2, 2, "a/y".data⟩, ⟨3, 3, "b".data⟩] := by
  refine ⟨by decide, by decide, by decide⟩

/-- C6: exhausting the cursor (the sentinel no-more-items condition) ends
    the walk with a nil error and returns the borrowed handle to the pool,
    after visiting every entry; a non-sentinel cursor error reached after
    accepted entries aborts the walk with exactly that error and
    invalidates the handle; an error from the visit callback does the same
    with exactly the callback error; and every walk either succeeds
    returning the handle or aborts having invalidated it. -/
theorem walk_pagination_termination_and_errors :
    (∀ (p : Pool) (cfg : GCSConfig) (gp : GoStr) (rcv : Bool)
        (steps : List IterStep) (visit : GFile → Option Nat),
      (∀ e, IterStep.fail e ∉ steps) →
      (∀ it, IterStep.item it ∈ steps →
        visit (entryOf (walkRootPath cfg gp) it) = none) →
      walk p cfg gp rcv steps visit none =
        (none, returnObject (borrowObject p).2 (borrowObject p).1,
          steps.filterMap (stepEntry (walkRootPath cfg gp)))) ∧
    (∀ (p : Pool) (cfg : GCSConfig) (gp : GoStr) (rcv : Bool)
        (pre : List IterStep) (e : Nat) (rest : List IterStep)
        (visit : GFile → Option Nat),
      (∀ s ∈ pre, ∃ it, s = IterStep.item it ∧
        visit (entryOf (walkRootPath cfg gp) it) = none) →
      walk p cfg gp rcv (pre ++ IterStep.fail e :: rest) visit none =
        (some e, invalidateObject (borrowObject p).2 (borrowObject p).1,
          pre.filterMap (stepEntry (walkRootPath cfg gp)))) ∧
    (∀ (p : Pool) (cfg : GCSConfig) (gp : GoStr) (rcv : Bool)
        (pre : List IterStep) (it : Item) (e : Nat) (rest : List IterStep)
        (visit : GFile → Option Nat),
      (∀ s ∈ pre, ∃ it2, s = IterStep.item it2 ∧
        visit (entryOf (walkRootPath cfg gp) it2) = none) →
      visit (entryOf (walkRootPath cfg gp) it) = some e →
      walk p cfg gp rcv (pre ++ IterStep.item it :: rest) visit none =
        (some e, invalidateObject (borrowObject p).2 (borrowObject p).1,
          pre.filterMap (stepEntry (walkRootPath cfg gp)) ++
            [entryOf (walkRootPath cfg gp) it])) ∧
    (∀ (p : Pool) (cfg : GCSConfig) (gp : GoStr) (rcv : Bool)
        (steps : List IterStep) (visit : GFile → Option Nat),
      ((walk p cfg gp rcv steps visit none).1 = none ∧
        (walk p cfg gp rcv steps visit none).2.1 =
          returnObject (borrowObject p).2 (borrowObject p).1) ∨
      (∃ e, (walk p cfg gp rcv steps visit none).1 = some e ∧
        (walk p cfg gp rcv steps visit none).2.1 =
          invalidateObject (borrowObject p).2 (borrowObject p).1)) := by
  refine ⟨?_, ?_, ?_, ?_⟩
  · intro p cfg gp rcv steps visit hfail hvisit
    rw [walk_none_eq]
    exact walkLoop_success _ _ _ _ steps hfail hvisit
  · intro p cfg gp rcv pre e rest visit hpre
    rw [walk_none_eq]
    exact walkLoop_first_fail _ _ _ _ pre hpre e rest
  · intro p cfg gp rcv pre it e rest visit hpre hv
    rw [walk_none_eq]
    exact walkLoop_first_visit_err _ _ _ _ pre hpre it e hv rest
  · intro p cfg gp rcv steps visit
    rw [walk_none_eq]
    exact walkLoop_pool _ _ _ _ steps

/-- C6 witness: the termination theorem applied to a concrete walk whose
    cursor yields one object entry and then the sentinel. -/
theorem walk_pagination_witness :
    walk pool0 cfgSlash "".data true [IterStep.item (Item.obj "b".data 3 3)]
        (fun _ => none) none =
      (none, returnObject (borrowObject pool0).2 (borrowObject pool0).1,
        [entryOf (walkRootPath cfgSlash "".data) (Item.obj "b".data 3 3)]) := by
  have hw := walk_pagination_termination_and_errors.1 pool0 cfgSlash "".data true
    [IterStep.item (Item.obj "b".data 3 3)] (fun _ => none)
    (by intro e hmem; simp at hmem)
    (by intro it hmem; rfl)
  simpa using hw

/-- C7: a successful PutFile (copy and close both succeed) followed by
    GetFileReader on the same path yields exactly the input bytes, for
    every input, because the 512 KiB chunked copy concatenates back to the
    original stream; PutFile itself reports a nil error. -/
theorem putFile_getFileReader_roundtrip (p q : Pool) (cfg : GCSConfig)
    (st : Store) (key : GoStr) (data : List Nat) :
    (putFile p cfg st none none none key data).1 = none ∧
    (getFileReader q cfg (putFile p cfg st none none none key data).2.1
        none none key).1 = Except.ok data := by
  refine ⟨rfl, ?_⟩
  have hst : (putFile p cfg st none none none key data).2.1 =
      storeSet st (goPathJoin [cfg.path, key])
        ⟨(chunkList copyBufSize data).flatten, cfg.storageCls,
          if 0 < cfg.objectLabels.length then cfg.objectLabels else []⟩ := rfl
  show Except.ok (((storeLookup (putFile p cfg st none none none key data).2.1
      (goPathJoin [cfg.path, key])).map (·.content)).getD []) = Except.ok data
  rw [hst, storeLookup_set]
  exact congrArg Except.ok (chunkList_flatten copyBufSize (by decide) data)

/-- C8: a CopyObject call whose attributes fetch and server-side copy both
    succeed reports exactly the size from the source attributes, and the
    copied object lands at the object-disk-root-joined destination key in
    the configured bucket. -/
theorem copyObject_success_reports_source_size (p : Pool) (cfg : GCSConfig)
    (st : Store2) (a : GFile) (srcBucket srcKey dstKey : GoStr) :
    (copyObject p cfg st none (Except.ok a) none srcBucket srcKey dstKey).1 =
      Except.ok a.size ∧
    store2Lookup
        (copyObject p cfg st none (Except.ok a) none srcBucket srcKey dstKey).2.1
        cfg.bucket (goPathJoin [cfg.objectDiskPath, dstKey]) =
      some ((store2Lookup st srcBucket srcKey).getD ⟨[], [], []⟩) := by
  refine ⟨rfl, ?_⟩
  show store2Lookup
      (store2Set st cfg.bucket (goPathJoin [cfg.objectDiskPath, dstKey])
        ((store2Lookup st srcBucket srcKey).getD ⟨[], [], []⟩))
      cfg.bucket (goPathJoin [cfg.objectDiskPath, dstKey]) = _
  rw [store2Lookup_set]

/-- C9: the diagnostic transport returns exactly the response and error
    pair produced by the wrapped base transport, for every request; its
    only effect is the log it accumulates. -/
theorem roundTrip_preserves_base_result
    (base : HttpReq → Option HttpResp × Option Nat) (r : HttpReq) :
    (roundTrip base r).1 = base r := by
  cases hb : (base r).2 with
  | some e => simp [roundTrip, hb]
  | none => simp [roundTrip, hb]

/-- C10: GetFileReaderWithLocalPath ignores its local-path argument and
    returns exactly what GetFileReader returns on the same key, for every
    pool, configuration, store, oracle outcome and arguments. -/
theorem getFileReaderWithLocalPath_eq_getFileReader (p : Pool)
    (cfg : GCSConfig) (st : Store) (be oe : Option Nat) (key lp : GoStr) :
    getFileReaderWithLocalPath p cfg st be oe key lp =
      getFileReader p cfg st be oe key := rfl
